import Mathlib

/-!
Verification of the categorical normalization and aggregation pipeline of the
gang-visualization scripts (colors.py, gang_colors.py, race.py, escalation.py,
heatmap.py).

Modelling conventions:
* a cell of the source table is `Option String`; `none` is a true absence
  (pandas NaN / Python None);
* `astypeStr` mirrors pandas `.astype(str)`, which renders a missing value as
  the string "nan";
* a DataFrame restricted to the two columns a script uses is a
  `List (Option String × Option String)` in row order;
* `pd.crosstab` sorts its row and column labels; `sortedDedup` reproduces that
  (distinct labels in ascending order).
-/

namespace GangViz

/-! ### Generic list helpers -/

/-- Distinct elements of `l` in ascending order: the row/column label list
produced by `pd.crosstab` / `groupby`, which sort group keys. -/
def sortedDedup {α : Type} [LinearOrder α] [DecidableEq α] (l : List α) : List α :=
  List.insertionSort (fun a b => a ≤ b) l.dedup

theorem mem_sortedDedup {α : Type} [LinearOrder α] [DecidableEq α]
    {a : α} {l : List α} : a ∈ sortedDedup l ↔ a ∈ l := by
  unfold sortedDedup
  rw [(List.perm_insertionSort _ l.dedup).mem_iff, List.mem_dedup]

theorem nodup_sortedDedup {α : Type} [LinearOrder α] [DecidableEq α]
    (l : List α) : (sortedDedup l).Nodup :=
  (List.perm_insertionSort _ l.dedup).symm.nodup_iff.mp l.nodup_dedup

/-! ### Shared pandas primitives -/

/-- Pandas `.astype(str)` on an object column: a missing value becomes the
string "nan"; a string value is unchanged. -/
def astypeStr (v : Option String) : String := v.getD "nan"

/-- Python whitespace, as stripped by `str.strip()`. -/
def wsp (c : Char) : Bool :=
  c = ' ' || c = '\t' || c = '\n' || c = '\r' || c = '\x0b' || c = '\x0c'

/-- Pandas `.str.strip()`: drop leading and trailing whitespace. (Char-level
restatement of `String.trim`, kept kernel-reducible.) -/
def strTrim (s : String) : String :=
  String.mk (((s.data.dropWhile wsp).reverse.dropWhile wsp).reverse)

/-- Pandas `.str.upper()`. (Char-level restatement of `String.toUpper`, kept
kernel-reducible.) -/
def strUpper (s : String) : String := String.mk (s.data.map Char.toUpper)

/-! ### gang_colors.py : standardize_column -/

/-- The value-replacement table of `standardize_column`:
`.replace(\x7b'NULL': 'N', 'NAN': 'N', 'N/A': 'N'\x7d)` (exact-match replace). -/
def standardizeReplace (s : String) : String :=
  if s = "NULL" then "N" else if s = "NAN" then "N" else if s = "N/A" then "N" else s

/-- gang_colors.py `standardize_column`, applied to one cell:
`series.astype(str).str.upper().str.strip()`, then the NULL/NAN/N-A replace
(the trailing `.fillna` is a no-op because `astype(str)` left no missing
values), then `standardized[standardized != 'Y'] = 'N'`. -/
def standardize_value (v : Option String) : String :=
  let s := strTrim (strUpper (astypeStr v))
  let s := standardizeReplace s
  if s = "Y" then "Y" else "N"

/-! ### colors.py : cleaning and the isin filter -/

/-- colors.py cleaning of one cell: `.fillna('N').replace('NULL', 'N')`
(exact-match, case-sensitive replace; nothing else is touched). -/
def colors_clean (v : Option String) : String :=
  match v with
  | none => "N"
  | some s => if s = "NULL" then "N" else s

/-- colors.py: clean both columns and keep only the rows whose two cleaned
values are both in `{'Y','N'}`:
`df = df[df[c1].isin(['Y','N']) & df[c2].isin(['Y','N'])]`. -/
def colorsRows (l : List (Option String × Option String)) : List (String × String) :=
  (l.map (fun p => (colors_clean p.1, colors_clean p.2))).filter
    (fun q => (q.1 = "Y" ∨ q.1 = "N") ∧ (q.2 = "Y" ∨ q.2 = "N"))

/-! ### race.py : cleaning -/

/-- Case-insensitive substring replacement of "NULL" (the behaviour of
`Series.str.replace('NULL', repl, case=False)`): scan left to right, replacing
every non-overlapping occurrence of N-U-L-L in any letter case by `repl`. -/
def ciReplaceNullAux (repl : List Char) : Nat → List Char → List Char
  | 0, l => l
  | _ + 1, [] => []
  | fuel + 1, a :: b :: c :: d :: rest =>
    if a.toUpper = 'N' ∧ b.toUpper = 'U' ∧ c.toUpper = 'L' ∧ d.toUpper = 'L' then
      repl ++ ciReplaceNullAux repl fuel rest
    else
      a :: ciReplaceNullAux repl fuel (b :: c :: d :: rest)
  | _ + 1, l => l

/-- String form of `ciReplaceNullAux`. The fuel argument (the input length)
only forces structural recursion; it never runs out, since every step consumes
at least one character. -/
def ciReplaceNull (repl s : String) : String :=
  String.mk (ciReplaceNullAux repl.data s.data.length s.data)

/-- race.py cleaning of the race column, applied to one cell:
`.astype(str).str.strip().str.replace('NULL', 'Unknown', case=False)`
then `.fillna('Unknown')` (a no-op after `astype(str)`) and
`.replace('nan', 'Unknown')` (exact-match replace). -/
def race_series (v : Option String) : String :=
  let s := strTrim (astypeStr v)
  let s := ciReplaceNull "Unknown" s
  if s = "nan" then "Unknown" else s

/-- race.py cleaning of the admits-gang column, applied to one cell:
`.astype(str).str.strip().str.replace('NULL', 'N', case=False)` then
`.fillna('N')` (no-op) and `.replace('nan', 'N')` (exact-match replace). -/
def admits_series (v : Option String) : String :=
  let s := strTrim (astypeStr v)
  let s := ciReplaceNull "N" s
  if s = "nan" then "N" else s

/-! ### The crosstab model -/

/-- One cell of `pd.crosstab(xs, ys)`: the number of records whose pair of
values is exactly `(r, c)`. -/
def countPair (l : List (String × String)) (r c : String) : Nat :=
  (l.filter (fun p => p.1 = r ∧ p.2 = c)).length

/-- Row labels of `pd.crosstab(xs, ys)`: the distinct first components in
ascending order. -/
def rowLabels (l : List (String × String)) : List String :=
  sortedDedup (l.map Prod.fst)

/-- Column labels of `pd.crosstab(xs, ys)`: the distinct second components in
ascending order. -/
def colLabels (l : List (String × String)) : List String :=
  sortedDedup (l.map Prod.snd)

/-- Sum of all cells of a table with the given row and column label lists. -/
def cellSum (rows cols : List String) (l : List (String × String)) : Nat :=
  (rows.map (fun r => (cols.map (fun c => countPair l r c)).sum)).sum

theorem countPair_nil (r c : String) : countPair [] r c = 0 := rfl

theorem countPair_cons (a : String × String) (t : List (String × String))
    (r c : String) :
    countPair (a :: t) r c = (if a.1 = r ∧ a.2 = c then 1 else 0) + countPair t r c := by
  simp only [countPair, List.filter_cons]
  split
  · rename_i h
    simp only [decide_eq_true_eq] at h
    simp [h, Nat.add_comm]
  · rename_i h
    simp only [decide_eq_true_eq] at h
    simp [h]

theorem sum_map_add {α : Type} (f g : α → Nat) (l : List α) :
    (l.map (fun a => f a + g a)).sum = (l.map f).sum + (l.map g).sum := by
  induction l with
  | nil => simp
  | cons a t ih => simp [ih]; omega

theorem sum_if_mem {α : Type} [DecidableEq α] (x : α) (k : Nat) (l : List α)
    (h : l.Nodup) :
    (l.map (fun c => if x = c then k else 0)).sum = if x ∈ l then k else 0 := by
  induction l with
  | nil => simp
  | cons c t ih =>
    rw [List.nodup_cons] at h
    by_cases hx : x = c
    · subst hx
      simp only [List.map_cons, List.sum_cons, if_pos rfl, ih h.2]
      simp [h.1]
    · simp only [List.map_cons, List.sum_cons, if_neg hx, ih h.2]
      simp [List.mem_cons, hx]

theorem cellSum_nil (rows cols : List String) : cellSum rows cols [] = 0 := by
  simp [cellSum, countPair_nil]

theorem cellSum_cons (rows cols : List String) (hr : rows.Nodup) (hc : cols.Nodup)
    (a : String × String) (t : List (String × String)) :
    cellSum rows cols (a :: t)
      = (if a.1 ∈ rows ∧ a.2 ∈ cols then 1 else 0) + cellSum rows cols t := by
  unfold cellSum
  have hinner : ∀ r : String,
      (cols.map (fun c => countPair (a :: t) r c)).sum
        = (if a.1 = r then (if a.2 ∈ cols then 1 else 0) else 0)
          + (cols.map (fun c => countPair t r c)).sum := by
    intro r
    have h1 : cols.map (fun c => countPair (a :: t) r c)
        = cols.map (fun c => (if a.1 = r ∧ a.2 = c then 1 else 0) + countPair t r c) := by
      simp [countPair_cons]
    rw [h1, sum_map_add]
    congr 1
    have h2 : cols.map (fun c => if a.1 = r ∧ a.2 = c then 1 else 0)
        = cols.map (fun c => if a.2 = c then (if a.1 = r then 1 else 0) else 0) := by
      apply List.map_congr_left
      intro c _
      by_cases hp : a.1 = r <;> by_cases hq : a.2 = c <;> simp [hp, hq]
    rw [h2, sum_if_mem _ _ _ hc]
    by_cases hp : a.1 = r <;> by_cases hq : a.2 ∈ cols <;> simp [hp, hq]
  have h3 : rows.map (fun r => (cols.map (fun c => countPair (a :: t) r c)).sum)
      = rows.map (fun r =>
          (if a.1 = r then (if a.2 ∈ cols then 1 else 0) else 0)
            + (cols.map (fun c => countPair t r c)).sum) := by
    apply List.map_congr_left
    intro r _
    exact hinner r
  rw [h3, sum_map_add, sum_if_mem _ _ _ hr]
  by_cases hp : a.1 ∈ rows <;> by_cases hq : a.2 ∈ cols <;> simp [hp, hq]

/-- Count conservation for a fixed table shape: if the row and column label
lists are duplicate-free, the sum of all cells counts exactly the records whose
first component is a listed row label and whose second is a listed column
label. -/
theorem cellSum_eq_filter_length (rows cols : List String)
    (hr : rows.Nodup) (hc : cols.Nodup) (l : List (String × String)) :
    cellSum rows cols l
      = (l.filter (fun p => p.1 ∈ rows ∧ p.2 ∈ cols)).length := by
  induction l with
  | nil => simp [cellSum_nil]
  | cons a t ih =>
    rw [cellSum_cons rows cols hr hc a t, ih, List.filter_cons]
    split
    · rename_i h
      rw [if_pos (decide_eq_true h), List.length_cons]
      omega
    · rename_i h
      rw [if_neg (fun hd => h (of_decide_eq_true hd))]
      omega

/-! ### colors.py : frequency table -/

/-- colors.py row index after `reindex(index=['N','Y'], fill_value=0)`. -/
def colorsRowIdx : List String := ["N", "Y"]

/-- colors.py final column list: crosstab columns, replaced by `['N','Y']`
only when both labels are present
(`if 'N' in frequency_table.columns and 'Y' in frequency_table.columns`). -/
def colorsCols (l : List (Option String × Option String)) : List String :=
  if "N" ∈ colLabels (colorsRows l) ∧ "Y" ∈ colLabels (colorsRows l) then ["N", "Y"]
  else colLabels (colorsRows l)

/-- Sum of all cells of colors.py's final frequency table. -/
def colorsTableSum (l : List (Option String × Option String)) : Nat :=
  cellSum colorsRowIdx (colorsCols l) (colorsRows l)

/-! ### gang_colors.py : contingency table -/

/-- gang_colors.py: both columns standardized; no filtering of rows. -/
def gangRows (l : List (Option String × Option String)) : List (String × String) :=
  l.map (fun p => (standardize_value p.1, standardize_value p.2))

/-- gang_colors.py contingency-table row labels (plain crosstab, no reindex). -/
def gangTableRows (l : List (Option String × Option String)) : List String :=
  rowLabels (gangRows l)

/-- gang_colors.py contingency-table column labels (plain crosstab, no
reindex). -/
def gangTableCols (l : List (Option String × Option String)) : List String :=
  colLabels (gangRows l)

/-- Sum of all cells of gang_colors.py's contingency table. -/
def gangTableSum (l : List (Option String × Option String)) : Nat :=
  cellSum (gangTableRows l) (gangTableCols l) (gangRows l)

/-! ### race.py : frequency table -/

/-- race.py: race column through `race_series`, admits column through
`admits_series`; no row filtering. -/
def raceRows (l : List (Option String × Option String)) : List (String × String) :=
  l.map (fun p => (race_series p.1, admits_series p.2))

/-- race.py final column list: the table is given an all-zero 'N' and 'Y'
column when missing and then restricted to exactly `[['N','Y']]`. -/
def raceTableCols : List String := ["N", "Y"]

/-- Sum of all cells of race.py's final frequency table (rows: every race
label; columns: exactly 'N','Y'). -/
def raceTableSum (l : List (Option String × Option String)) : Nat :=
  cellSum (rowLabels (raceRows l)) raceTableCols (raceRows l)

/-- Unfolding of `standardize_value` without the intermediate lets. -/
theorem standardize_value_eq (v : Option String) :
    standardize_value v
      = (if standardizeReplace (strTrim (strUpper (astypeStr v))) = "Y" then "Y" else "N") :=
  rfl

/-- If the trimmed upper-cased form of a value is not "Y", the replacement
table cannot produce "Y" either. -/
theorem standardizeReplace_ne_Y {s : String} (h : s ≠ "Y") : standardizeReplace s ≠ "Y" := by
  unfold standardizeReplace
  split_ifs <;> simp [h]

/-! ### Claim C1 -/

/-- C1, counterexample: in colors.py an unrecognized binary value that is
neither "Y" nor a null marker is NOT mapped to "N"; the cleaning leaves it
untouched and the `isin(['Y','N'])` filter then removes the record. -/
theorem c1_colors_drops_unrecognized :
    colors_clean (some "MAYBE") ≠ "N"
      ∧ colorsRows [(some "MAYBE", some "Y")] = [] := by
  constructor
  · decide
  · decide

/-- C1, amended: the claim holds for the `standardize_column` normalizer of
gang_colors.py: every output is "Y" or "N"; any value whose trimmed,
case-folded form is not exactly "Y" maps to "N"; and no record is removed
(the standardized dataset has the same length as the input). In colors.py and
race.py, by contrast, unrecognized strings survive cleaning and such records
are later dropped (by the isin filter, resp. the display-column selection). -/
theorem c1_standardize_collapse :
    (∀ v : Option String, standardize_value v = "Y" ∨ standardize_value v = "N")
      ∧ (∀ v : Option String,
          strTrim (strUpper (astypeStr v)) ≠ "Y" → standardize_value v = "N")
      ∧ (∀ l : List (Option String × Option String), (gangRows l).length = l.length) := by
  refine ⟨?_, ?_, ?_⟩
  · intro v
    rw [standardize_value_eq]
    split_ifs <;> simp
  · intro v h
    rw [standardize_value_eq, if_neg (standardizeReplace_ne_Y h)]
  · intro l
    simp [gangRows]

/-- C1 witness: the amended theorem applied at a concrete unrecognized value. -/
theorem c1_standardize_collapse_witness :
    standardize_value (some " maybe ") = "N" :=
  c1_standardize_collapse.2.1 (some " maybe ") (by decide)

/-! ### Claim C2 -/

/-- C2, counterexample: null markers are not uniformly collapsed. In race.py
the empty string survives cleaning unchanged (it is neither "Unknown" nor
"N"); in colors.py a lower-case "null" and the empty string survive cleaning
(and the record is then dropped rather than counted as "N"). -/
theorem c2_null_markers_not_collapsed :
    race_series (some "") ≠ "Unknown"
      ∧ admits_series (some "") ≠ "N"
      ∧ colors_clean (some "null") ≠ "N"
      ∧ colors_clean (some "") ≠ "N" := by
  refine ⟨by decide, by decide, by decide, by decide⟩

/-- C2, amended: gang_colors.py's `standardize_column` does collapse every
null marker (true absence, which `astype(str)` renders as "nan", the empty
string, and "NULL" in any letter case, with surrounding whitespace) to "N".
race.py collapses absence, "nan" and case-insensitive "NULL" to its absent
labels but leaves the empty string unchanged; colors.py collapses only true
absence and the exact upper-case "NULL". -/
theorem c2_null_collapse :
    (∀ v : Option String,
        strTrim (strUpper (astypeStr v)) ∈ (["", "NULL", "NAN"] : List String) →
          standardize_value v = "N")
      ∧ race_series none = "Unknown"
      ∧ race_series (some "NULL") = "Unknown"
      ∧ race_series (some "null") = "Unknown"
      ∧ admits_series none = "N"
      ∧ admits_series (some "Null") = "N"
      ∧ colors_clean none = "N"
      ∧ colors_clean (some "NULL") = "N" := by
  refine ⟨?_, by decide, by decide, by decide, by decide, by decide, by decide, by decide⟩
  intro v h
  rw [standardize_value_eq]
  simp only [List.mem_cons, List.mem_singleton, List.not_mem_nil, or_false] at h
  rcases h with h | h | h <;> rw [h] <;> decide

/-- C2 witness: the amended theorem applied at a concrete null marker. -/
theorem c2_null_collapse_witness :
    standardize_value (some " null ") = "N" :=
  c2_null_collapse.1 (some " null ") (by decide)

theorem nodup_rowLabels (l : List (String × String)) : (rowLabels l).Nodup :=
  nodup_sortedDedup _

theorem nodup_colLabels (l : List (String × String)) : (colLabels l).Nodup :=
  nodup_sortedDedup _

theorem mem_rowLabels {l : List (String × String)} {p : String × String}
    (hp : p ∈ l) : p.1 ∈ rowLabels l :=
  mem_sortedDedup.mpr (List.mem_map_of_mem _ hp)

theorem mem_colLabels {l : List (String × String)} {p : String × String}
    (hp : p ∈ l) : p.2 ∈ colLabels l :=
  mem_sortedDedup.mpr (List.mem_map_of_mem _ hp)

/-- Every record surviving colors.py's isin filter has both values in
`{'Y','N'}`. -/
theorem mem_colorsRows {l : List (Option String × Option String)}
    {p : String × String} (hp : p ∈ colorsRows l) :
    (p.1 = "Y" ∨ p.1 = "N") ∧ (p.2 = "Y" ∨ p.2 = "N") := by
  unfold colorsRows at hp
  exact of_decide_eq_true (List.mem_filter.mp hp).2

/-! ### Claim C3 -/

/-- C3, counterexample: in race.py a record whose admits-gang value normalizes
to a label outside `{'N','Y'}` silently vanishes from the final table (the
`[['N','Y']]` column selection drops it), although race.py has no documented
filter step: for the one-record input (race "Black", admits "Maybe"), the
table cells sum to 0, not 1. -/
theorem c3_race_record_vanishes :
    raceTableSum [(some "Black", some "Maybe")]
      ≠ ([(some "Black", some "Maybe")] : List (Option String × Option String)).length := by
  decide

/-- C3, amended: count conservation holds per variant in the following form.
For colors.py the table cells sum to the number of records surviving the
documented isin filter; for gang_colors.py (whose normalizer is total on
`{'Y','N'}` and which filters nothing) the cells sum to the full record
count; for race.py the cells sum only to the number of records whose
normalized admits-gang label lies in `{'N','Y'}` — records with any other
normalized label are dropped silently by the display-column selection. -/
theorem c3_count_conservation (l : List (Option String × Option String)) :
    colorsTableSum l = (colorsRows l).length
      ∧ gangTableSum l = l.length
      ∧ raceTableSum l
          = ((raceRows l).filter (fun p => p.2 = "N" ∨ p.2 = "Y")).length := by
  refine ⟨?_, ?_, ?_⟩
  · have hc : (colorsCols l).Nodup := by
      unfold colorsCols
      split_ifs with h
      · decide
      · exact nodup_colLabels _
    unfold colorsTableSum
    rw [cellSum_eq_filter_length _ _ (by decide) hc]
    rw [List.filter_eq_self.mpr ?_]
    intro p hp
    apply decide_eq_true
    refine ⟨?_, ?_⟩
    · rcases (mem_colorsRows hp).1 with h1 | h1 <;> rw [h1] <;> decide
    · unfold colorsCols
      split_ifs with h
      · rcases (mem_colorsRows hp).2 with h2 | h2 <;> rw [h2] <;> decide
      · exact mem_colLabels hp
  · unfold gangTableSum gangTableRows gangTableCols
    rw [cellSum_eq_filter_length _ _ (nodup_rowLabels _) (nodup_colLabels _)]
    rw [List.filter_eq_self.mpr ?_]
    · exact List.length_map _ _
    · intro p hp
      exact decide_eq_true ⟨mem_rowLabels hp, mem_colLabels hp⟩
  · unfold raceTableSum
    rw [cellSum_eq_filter_length _ _ (nodup_rowLabels _) (by decide)]
    apply congrArg List.length
    apply List.filter_congr
    intro p hp
    have h1 : p.1 ∈ rowLabels (raceRows l) := mem_rowLabels hp
    simp [h1, raceTableCols]

/-! ### Claim C4 -/

/-- C4, evaluation at the failing input: a canonical label that never occurs
in the data does NOT appear with count 0. In colors.py, when the cleaned
admits column contains only "N", the `[['N','Y']]` selection is skipped and
the final table has no 'Y' column; in gang_colors.py there is no reindex at
all, so a never-occurring label is missing from both axes. -/
theorem c4_missing_label_eval :
    colorsCols [(some "Y", some "N")] = ["N"]
      ∧ gangTableRows [(some "Y", some "Y")] = ["Y"]
      ∧ gangTableCols [(some "Y", some "Y")] = ["Y"] := by
  refine ⟨by decide, by decide, by decide⟩

/-! ### escalation.py : yearly trend table -/

/-- The three tracked risk-flag columns of escalation.py
(`columns_to_track = ['Subject_Armed', 'Subject_Felon', 'Subject_Probation']`). -/
inductive TrackCol
  | armed
  | felon
  | probation
deriving DecidableEq

/-- One record of escalation.py after `df['Year'] = df[column_date].dt.year`:
the extracted year plus the three tracked flag cells. -/
structure EscRow where
  year : Int
  armed : Option String
  felon : Option String
  probation : Option String
deriving DecidableEq

/-- Cell selection for a tracked column. -/
def colOf : TrackCol → EscRow → Option String
  | .armed => EscRow.armed
  | .felon => EscRow.felon
  | .probation => EscRow.probation

/-- escalation.py's flag test, applied to one cell:
`df[col].notna() & (df[col].astype(str).str.strip() != '')`. -/
def is_flagged (v : Option String) : Bool :=
  match v with
  | none => false
  | some s => strTrim s ≠ ""

/-- The index of the trend table: the years observed in the data
(`df.groupby('Year')` keys, ascending). -/
def escYears (l : List EscRow) : List Int := sortedDedup (l.map EscRow.year)

/-- `Total_Records` for a year: `df.groupby('Year').size()`. -/
def escTotal (l : List EscRow) (y : Int) : Nat :=
  (l.filter (fun r => r.year = y)).length

/-- `{col}_Count` for a year: size of the group of `flagged_df` (records whose
tracked cell passes `is_flagged`); the `how='left'` merge plus `fillna(0)`
makes this 0 for a year with no flagged records. -/
def escFlagged (l : List EscRow) (c : TrackCol) (y : Int) : Nat :=
  (l.filter (fun r => r.year = y ∧ is_flagged (colOf c r))).length

/-- `{col}_Percent`: `(trends_df[count] / trends_df['Total_Records']) * 100`. -/
def escPercent (l : List EscRow) (c : TrackCol) (y : Int) : ℚ :=
  ((escFlagged l c y : ℚ) / (escTotal l y : ℚ)) * 100

theorem filter_length_mono {α : Type} (p q : α → Bool) (l : List α)
    (h : ∀ a, p a = true → q a = true) :
    (l.filter p).length ≤ (l.filter q).length := by
  induction l with
  | nil => simp
  | cons a t ih =>
    by_cases hp : p a
    · rw [List.filter_cons_of_pos hp, List.filter_cons_of_pos (h a hp)]
      exact Nat.succ_le_succ ih
    · rw [List.filter_cons_of_neg (by simpa using hp)]
      by_cases hq : q a
      · rw [List.filter_cons_of_pos hq]
        exact Nat.le_succ_of_le ih
      · rw [List.filter_cons_of_neg (by simpa using hq)]
        exact ih

/-! ### Claim C6 -/

/-- C6: a record counts as flagged for a tracked column exactly when the cell
is present and non-empty after trimming — regardless of its content (the
value "N" is flagged) — which is a different policy from the binary
normalizer, under which "N" stays "N". -/
theorem c6_flag_policy :
    (∀ v : Option String, is_flagged v = true ↔ ∃ s, v = some s ∧ strTrim s ≠ "")
      ∧ is_flagged none = false
      ∧ is_flagged (some "  ") = false
      ∧ is_flagged (some "N") = true
      ∧ standardize_value (some "N") = "N" := by
  refine ⟨?_, by decide, by decide, by decide, by decide⟩
  intro v
  cases v with
  | none => simp [is_flagged]
  | some s => simp [is_flagged]

/-! ### Claim C5 -/

/-- C5: every percentage of the trend table is within [0, 100], and every year
that appears in the table has a positive total record count (a groupby key
exists only when at least one record has that year), so no division by zero
and no NaN or infinite percentage can arise. -/
theorem c5_percentage_bounds (l : List EscRow) (c : TrackCol) (y : Int)
    (hy : y ∈ escYears l) :
    0 < escTotal l y ∧ 0 ≤ escPercent l c y ∧ escPercent l c y ≤ 100 := by
  obtain ⟨r, hr, hry⟩ := List.mem_map.mp (mem_sortedDedup.mp hy)
  have htot : 0 < escTotal l y := by
    unfold escTotal
    exact List.length_pos_of_mem (List.mem_filter.mpr ⟨hr, decide_eq_true hry⟩)
  have hle : escFlagged l c y ≤ escTotal l y := by
    unfold escFlagged escTotal
    apply filter_length_mono
    intro a ha
    have := of_decide_eq_true ha
    exact decide_eq_true this.1
  have htotQ : (0 : ℚ) < (escTotal l y : ℚ) := by exact_mod_cast htot
  refine ⟨htot, ?_, ?_⟩
  · unfold escPercent
    apply mul_nonneg
    · exact div_nonneg (Nat.cast_nonneg _) (Nat.cast_nonneg _)
    · norm_num
  · unfold escPercent
    have hdiv : (escFlagged l c y : ℚ) / (escTotal l y : ℚ) ≤ 1 := by
      rw [div_le_one htotQ]
      exact_mod_cast hle
    calc ((escFlagged l c y : ℚ) / (escTotal l y : ℚ)) * 100
        ≤ 1 * 100 := by
          exact mul_le_mul_of_nonneg_right hdiv (by norm_num)
      _ = 100 := one_mul 100

/-- C5 witness: the bounds at a concrete one-record dataset. -/
theorem c5_percentage_bounds_witness :
    0 < escTotal [⟨2015, some "Y", none, some " "⟩] 2015
      ∧ 0 ≤ escPercent [⟨2015, some "Y", none, some " "⟩] TrackCol.armed 2015
      ∧ escPercent [⟨2015, some "Y", none, some " "⟩] TrackCol.armed 2015 ≤ 100 :=
  c5_percentage_bounds [⟨2015, some "Y", none, some " "⟩] TrackCol.armed 2015 (by decide)

/-! ### heatmap.py : geographic aggregate -/

/-- heatmap.py ZIP cleaning, applied to one cell: `.astype(str)`, the regex
replacement of `\..*` by the empty string (everything from the first dot is
dropped), `.str.strip()`, and `.str[:5]` (the first five characters). -/
def zip_clean (v : Option String) : String :=
  String.mk
    ((strTrim (String.mk ((astypeStr v).data.takeWhile (fun c => c ≠ '.')))).data.take 5)

/-- heatmap.py rows: clean the zip column, keep rows whose cleaned zip has
exactly 5 characters (`df[df[column_zip].str.len() == 5]`), then clean the
race column exactly as race.py does. -/
def heatRows (l : List (Option String × Option String)) : List (String × String) :=
  ((l.map (fun p => (zip_clean p.1, p.2))).filter (fun q => q.1.length = 5)).map
    (fun q => (q.1, race_series q.2))

/-- Index of the geo aggregate: the distinct cleaned ZIP codes (crosstab row
labels, ascending). -/
def heatZips (l : List (Option String × Option String)) : List String :=
  sortedDedup ((heatRows l).map Prod.fst)

/-- Columns of the geo crosstab: the distinct cleaned race labels of the whole
dataset, ascending. -/
def raceCats (l : List (Option String × Option String)) : List String :=
  sortedDedup ((heatRows l).map Prod.snd)

/-- The multiset of race labels recorded for one ZIP code. -/
def zipGroup (l : List (Option String × Option String)) (z : String) : List String :=
  ((heatRows l).filter (fun p => p.1 = z)).map Prod.snd

/-- One cell of `race_zip_counts`: how many of the group's records carry the
race label `c`. -/
def countIn (g : List String) (c : String) : Nat := (g.filter (fun x => x = c)).length

/-- One cell of `race_zip_percentage`:
`race_zip_counts.div(race_zip_counts.sum(axis=1), axis=0) * 100`. -/
def pctShare (g : List String) (c : String) : ℚ :=
  ((countIn g c : ℚ) / (g.length : ℚ)) * 100

/-- Row maximum of the percentage table (`race_zip_percentage.max(axis=1)`).
All percentages are nonnegative, so folding `max` from 0 equals the row
maximum. -/
def rowMaxPct (cats g : List String) : ℚ := (cats.map (pctShare g)).foldr max 0

/-- `race_zip_percentage.idxmax(axis=1)`: the first column label, in the
table's fixed (ascending) column order, whose percentage attains the row
maximum. -/
def dominant_race (l : List (Option String × Option String)) (z : String) :
    Option String :=
  (raceCats l).find? (fun c => pctShare (zipGroup l z) c = rowMaxPct (raceCats l) (zipGroup l z))

/-- `race_zip_percentage.max(axis=1)`, the reported dominant percentage. -/
def dominant_percentage (l : List (Option String × Option String)) (z : String) : ℚ :=
  rowMaxPct (raceCats l) (zipGroup l z)

/-- `Total_Records` for a ZIP code: `race_zip_counts.sum(axis=1)`. -/
def totalRecords (l : List (Option String × Option String)) (z : String) : Nat :=
  (zipGroup l z).length

/-- `max_records = map_data['Total_Records'].max()` (counts are nonnegative,
so folding `max` from 0 equals the maximum). -/
def maxRecords (l : List (Option String × Option String)) : Nat :=
  ((heatZips l).map (totalRecords l)).foldr max 0

/-- heatmap.py's range-preset table, selected by the overall maximum count. -/
def ranges (maxr : Nat) : List (Nat × Nat) :=
  if maxr ≤ 10 then [(1, 1), (2, 2), (3, 4), (5, 7), (8, maxr)]
  else if maxr ≤ 50 then [(1, 2), (3, 5), (6, 10), (11, 20), (21, maxr)]
  else if maxr ≤ 100 then [(1, 3), (4, 8), (9, 15), (16, 30), (31, maxr)]
  else if maxr ≤ 500 then [(1, 5), (6, 15), (16, 30), (31, 60), (61, maxr)]
  else [(1, 10), (11, 25), (26, 50), (51, 100), (101, maxr)]

/-- The enumerated scan of `get_logical_color`: return `i + 1` for the first
range (0-based index `i`) containing `records`, or `none` if no range
matches. -/
def get_logical_color_aux : List (Nat × Nat) → Nat → Nat → Option Nat
  | [], _, _ => none
  | (lo, hi) :: rest, records, i =>
    if lo ≤ records ∧ records ≤ hi then some (i + 1)
    else get_logical_color_aux rest records (i + 1)

/-- heatmap.py `get_logical_color`: the scan above with the out-of-range
fallback value 1. -/
def get_logical_color (rs : List (Nat × Nat)) (records : Nat) : Nat :=
  (get_logical_color_aux rs records 0).getD 1

/-- Joint coverage check: does some range of `rs` contain `r`? -/
def covers (rs : List (Nat × Nat)) (r : Nat) : Bool :=
  rs.any (fun p => p.1 ≤ r && r ≤ p.2)

theorem le_foldr_max {α : Type} [LinearOrder α] {a : α} {l : List α} (b : α)
    (h : a ∈ l) : a ≤ l.foldr max b := by
  induction l with
  | nil => simp at h
  | cons x t ih =>
    rcases List.mem_cons.mp h with rfl | ht
    · exact le_max_left _ _
    · exact le_trans (ih ht) (le_max_right _ _)

theorem foldr_max_mem {α : Type} [LinearOrder α] (b : α) (l : List α) :
    l.foldr max b = b ∨ l.foldr max b ∈ l := by
  induction l with
  | nil => left; rfl
  | cons x t ih =>
    rcases max_choice x (t.foldr max b) with h | h
    · right; rw [List.foldr_cons, h]; exact List.mem_cons_self _ _
    · rcases ih with h2 | h2
      · left; rw [List.foldr_cons, h, h2]
      · right; rw [List.foldr_cons, h]; exact List.mem_cons_of_mem _ h2

theorem ranges_length (m : Nat) : (ranges m).length = 5 := by
  unfold ranges
  split_ifs <;> rfl

/-- The five preset ranges selected for a maximum `m` jointly cover every
integer in `[1, m]`. -/
theorem ranges_cover (m r : Nat) (h1 : 1 ≤ r) (h2 : r ≤ m) :
    covers (ranges m) r = true := by
  unfold ranges covers
  split_ifs <;> simp <;> omega

theorem get_logical_color_aux_isSome (rs : List (Nat × Nat)) (r : Nat) :
    ∀ i : Nat, covers rs r = true → (get_logical_color_aux rs r i).isSome = true := by
  induction rs with
  | nil => intro i h; simp [covers] at h
  | cons p rest ih =>
    intro i h
    rcases p with ⟨lo, hi⟩
    by_cases hp : lo ≤ r ∧ r ≤ hi
    · simp [get_logical_color_aux, hp]
    · have h2 : covers rest r = true := by
        simp only [covers, List.any_cons, Bool.or_eq_true, Bool.and_eq_true,
          decide_eq_true_eq] at h
        rcases h with h | h
        · exact absurd h hp
        · simpa [covers] using h
      simp only [get_logical_color_aux, if_neg hp]
      exact ih (i + 1) h2

theorem get_logical_color_aux_bounds (rs : List (Nat × Nat)) (r : Nat) :
    ∀ i k : Nat, get_logical_color_aux rs r i = some k → i + 1 ≤ k ∧ k ≤ i + rs.length := by
  induction rs with
  | nil => intro i k h; simp [get_logical_color_aux] at h
  | cons p rest ih =>
    intro i k h
    rcases p with ⟨lo, hi⟩
    by_cases hp : lo ≤ r ∧ r ≤ hi
    · rw [get_logical_color_aux, if_pos hp] at h
      have hk : i + 1 = k := Option.some.inj h
      rw [List.length_cons]
      omega
    · rw [get_logical_color_aux, if_neg hp] at h
      have hk := ih (i + 1) k h
      rw [List.length_cons]
      omega

/-! ### Claim C10 -/

/-- C10: for every postal code of a Geo Aggregate, the total record count is
between 1 and the overall maximum, the selected preset ranges cover every
integer in [1, maximum], and so `get_logical_color` finds a matching range
(the scan is some, never the fallback) and returns a tier in \x7b1,...,5\x7d. -/
theorem c10_legend_tier_total (l : List (Option String × Option String)) (z : String)
    (hz : z ∈ heatZips l) :
    1 ≤ totalRecords l z
      ∧ totalRecords l z ≤ maxRecords l
      ∧ (∀ t : Nat, 1 ≤ t → t ≤ maxRecords l → covers (ranges (maxRecords l)) t = true)
      ∧ (get_logical_color_aux (ranges (maxRecords l)) (totalRecords l z) 0).isSome = true
      ∧ 1 ≤ get_logical_color (ranges (maxRecords l)) (totalRecords l z)
      ∧ get_logical_color (ranges (maxRecords l)) (totalRecords l z) ≤ 5 := by
  obtain ⟨p, hp, hpz⟩ := List.mem_map.mp (mem_sortedDedup.mp hz)
  have h1 : 1 ≤ totalRecords l z := by
    unfold totalRecords zipGroup
    rw [List.length_map]
    exact List.length_pos_of_mem (List.mem_filter.mpr ⟨hp, decide_eq_true hpz⟩)
  have h2 : totalRecords l z ≤ maxRecords l := by
    unfold maxRecords
    exact le_foldr_max 0 (List.mem_map_of_mem _ hz)
  have hcov := ranges_cover (maxRecords l) (totalRecords l z) h1 h2
  have hsome := get_logical_color_aux_isSome (ranges (maxRecords l)) (totalRecords l z) 0 hcov
  obtain ⟨k, hk⟩ := Option.isSome_iff_exists.mp hsome
  have hb := get_logical_color_aux_bounds (ranges (maxRecords l)) (totalRecords l z) 0 k hk
  rw [ranges_length] at hb
  refine ⟨h1, h2, fun t ht1 ht2 => ranges_cover _ t ht1 ht2, hsome, ?_, ?_⟩
  · unfold get_logical_color
    rw [hk, Option.getD_some]
    omega
  · unfold get_logical_color
    rw [hk, Option.getD_some]
    omega

/-- C10 witness: the tier facts at a concrete one-record dataset. -/
theorem c10_legend_tier_total_witness :
    1 ≤ totalRecords [(some "60601", some "Black")] "60601"
      ∧ totalRecords [(some "60601", some "Black")] "60601"
          ≤ maxRecords [(some "60601", some "Black")]
      ∧ (∀ t : Nat, 1 ≤ t → t ≤ maxRecords [(some "60601", some "Black")] →
          covers (ranges (maxRecords [(some "60601", some "Black")])) t = true)
      ∧ (get_logical_color_aux (ranges (maxRecords [(some "60601", some "Black")]))
          (totalRecords [(some "60601", some "Black")] "60601") 0).isSome = true
      ∧ 1 ≤ get_logical_color (ranges (maxRecords [(some "60601", some "Black")]))
          (totalRecords [(some "60601", some "Black")] "60601")
      ∧ get_logical_color (ranges (maxRecords [(some "60601", some "Black")]))
          (totalRecords [(some "60601", some "Black")] "60601") ≤ 5 :=
  c10_legend_tier_total [(some "60601", some "Black")] "60601" (by decide)

/-- `List.find?` returns the first satisfying element: any other satisfying
element sits at a position no earlier. -/
theorem find?_first (p : String → Bool) (l : List String) (a : String)
    (h : l.find? p = some a) :
    ∀ b ∈ l, p b = true → l.indexOf a ≤ l.indexOf b := by
  induction l with
  | nil => simp at h
  | cons x t ih =>
    intro b hb hpb
    cases hpx : p x with
    | true =>
      simp only [List.find?_cons, hpx, Option.some.injEq] at h
      subst h
      rw [List.indexOf_cons_self]
      exact Nat.zero_le _
    | false =>
      simp only [List.find?_cons, hpx] at h
      have hax : x ≠ a := by
        intro e
        have hpa := List.find?_some h
        rw [← e, hpx] at hpa
        exact Bool.noConfusion hpa
      rcases List.mem_cons.mp hb with rfl | hbt
      · rw [hpb] at hpx
        exact Bool.noConfusion hpx
      · have hbx : x ≠ b := by
          intro e
          rw [e, hpb] at hpx
          exact Bool.noConfusion hpx
        rw [List.indexOf_cons_ne t hax, List.indexOf_cons_ne t hbx]
        exact Nat.succ_le_succ (ih h b hbt hpb)

/-- With a positive group size, percentage shares compare exactly as the
underlying counts do. -/
theorem pctShare_le_iff {g : List String} {a b : String} (hg : 0 < g.length) :
    (pctShare g a ≤ pctShare g b ↔ countIn g a ≤ countIn g b) := by
  have hQ : (0 : ℚ) < (g.length : ℚ) := by exact_mod_cast hg
  unfold pctShare
  rw [mul_le_mul_right (by norm_num : (0 : ℚ) < 100),
    div_le_div_iff_of_pos_right hQ]
  exact Nat.cast_le

/-! ### Claim C7 -/

/-- C7: for every postal-code group, `idxmax` returns a label `d` of the
fixed (ascending) column list whose count attains the group maximum; the
reported dominant percentage is exactly `d`'s share of the group's records;
and among all labels tying for the maximum count, `d` is the earliest in the
table's fixed column order — the choice is deterministic, not data-order
dependent. -/
theorem c7_dominant_correct (l : List (Option String × Option String)) (z : String)
    (hz : z ∈ heatZips l) :
    ∃ d, dominant_race l z = some d
      ∧ d ∈ raceCats l
      ∧ (∀ c ∈ raceCats l, countIn (zipGroup l z) c ≤ countIn (zipGroup l z) d)
      ∧ dominant_percentage l z
          = ((countIn (zipGroup l z) d : ℚ) / ((zipGroup l z).length : ℚ)) * 100
      ∧ (∀ c ∈ raceCats l, countIn (zipGroup l z) c = countIn (zipGroup l z) d →
            (raceCats l).indexOf d ≤ (raceCats l).indexOf c) := by
  obtain ⟨p, hp, hpz⟩ := List.mem_map.mp (mem_sortedDedup.mp hz)
  have hglen : 0 < (zipGroup l z).length := by
    unfold zipGroup
    rw [List.length_map]
    exact List.length_pos_of_mem (List.mem_filter.mpr ⟨hp, decide_eq_true hpz⟩)
  have hsub : ∀ x ∈ zipGroup l z, x ∈ raceCats l := by
    intro x hx
    unfold zipGroup at hx
    obtain ⟨q, hq, rfl⟩ := List.mem_map.mp hx
    exact mem_sortedDedup.mpr (List.mem_map_of_mem _ (List.mem_filter.mp hq).1)
  obtain ⟨x0, hx0⟩ := List.exists_mem_of_length_pos hglen
  have hx0cats := hsub x0 hx0
  have hx0cnt : 0 < countIn (zipGroup l z) x0 := by
    unfold countIn
    exact List.length_pos_of_mem (List.mem_filter.mpr ⟨hx0, decide_eq_true rfl⟩)
  have hQlen : (0 : ℚ) < ((zipGroup l z).length : ℚ) := by exact_mod_cast hglen
  have hx0pct : 0 < pctShare (zipGroup l z) x0 := by
    unfold pctShare
    apply mul_pos _ (by norm_num : (0 : ℚ) < 100)
    apply div_pos _ hQlen
    exact_mod_cast hx0cnt
  have hmax_ge : pctShare (zipGroup l z) x0 ≤ rowMaxPct (raceCats l) (zipGroup l z) :=
    le_foldr_max 0 (List.mem_map_of_mem _ hx0cats)
  have hmaxpos : 0 < rowMaxPct (raceCats l) (zipGroup l z) :=
    lt_of_lt_of_le hx0pct hmax_ge
  have hmem : rowMaxPct (raceCats l) (zipGroup l z)
      ∈ (raceCats l).map (pctShare (zipGroup l z)) := by
    rcases foldr_max_mem 0 ((raceCats l).map (pctShare (zipGroup l z))) with h | h
    · rw [rowMaxPct] at hmaxpos
      rw [h] at hmaxpos
      exact absurd hmaxpos (lt_irrefl 0)
    · exact h
  obtain ⟨d0, hd0cats, hd0pct⟩ := List.mem_map.mp hmem
  have hfind : dominant_race l z ≠ none := by
    unfold dominant_race
    intro hnone
    exact List.find?_eq_none.mp hnone d0 hd0cats (decide_eq_true hd0pct)
  obtain ⟨d, hd⟩ := Option.ne_none_iff_exists'.mp hfind
  have hdfind : (raceCats l).find?
      (fun c => pctShare (zipGroup l z) c = rowMaxPct (raceCats l) (zipGroup l z))
      = some d := hd
  have hdp := List.find?_some hdfind
  have hdpct : pctShare (zipGroup l z) d = rowMaxPct (raceCats l) (zipGroup l z) :=
    of_decide_eq_true hdp
  have hdcats : d ∈ raceCats l := List.mem_of_find?_eq_some hdfind
  refine ⟨d, hd, hdcats, ?_, ?_, ?_⟩
  · intro c hc
    have hle : pctShare (zipGroup l z) c ≤ pctShare (zipGroup l z) d := by
      rw [hdpct]
      exact le_foldr_max 0 (List.mem_map_of_mem _ hc)
    exact (pctShare_le_iff hglen).mp hle
  · unfold dominant_percentage
    rw [← hdpct]
    rfl
  · intro c hc hcd
    have hpcteq : pctShare (zipGroup l z) c = pctShare (zipGroup l z) d := by
      unfold pctShare
      rw [hcd]
    exact find?_first _ _ _ hdfind c hc (decide_eq_true (hpcteq.trans hdpct))

/-- C7 witness: the dominant-category facts at a concrete two-record group. -/
theorem c7_dominant_correct_witness :
    ∃ d, dominant_race [(some "60601", some "Black"), (some "60601", some "White")] "60601"
          = some d
      ∧ d ∈ raceCats [(some "60601", some "Black"), (some "60601", some "White")]
      ∧ (∀ c ∈ raceCats [(some "60601", some "Black"), (some "60601", some "White")],
          countIn (zipGroup [(some "60601", some "Black"), (some "60601", some "White")] "60601") c
            ≤ countIn (zipGroup [(some "60601", some "Black"), (some "60601", some "White")] "60601") d)
      ∧ dominant_percentage [(some "60601", some "Black"), (some "60601", some "White")] "60601"
          = ((countIn (zipGroup [(some "60601", some "Black"), (some "60601", some "White")] "60601") d : ℚ)
              / ((zipGroup [(some "60601", some "Black"), (some "60601", some "White")] "60601").length : ℚ)) * 100
      ∧ (∀ c ∈ raceCats [(some "60601", some "Black"), (some "60601", some "White")],
          countIn (zipGroup [(some "60601", some "Black"), (some "60601", some "White")] "60601") c
              = countIn (zipGroup [(some "60601", some "Black"), (some "60601", some "White")] "60601") d →
            (raceCats [(some "60601", some "Black"), (some "60601", some "White")]).indexOf d
              ≤ (raceCats [(some "60601", some "Black"), (some "60601", some "White")]).indexOf c) :=
  c7_dominant_correct [(some "60601", some "Black"), (some "60601", some "White")] "60601" (by decide)

/-! ### Synthetic fallback generators (C8)

numpy's global PRNG is modelled as a `Nat` state with a deterministic
transition; the concrete draw semantics (Mersenne Twister, probability
weights) are abstracted: `lcg` is a stand-in transition and `randPick` a
stand-in draw. What the claims use is only structure visible in the source:
which scripts call `np.random.seed(k)` — fixing the state to a function of
`k` alone before any draw — and which (gang_colors.py) draw from the
ambient, run-dependent state. -/

/-- Stand-in deterministic transition of the modelled PRNG state. -/
def lcg (s : Nat) : Nat := (1664525 * s + 1013904223) % 4294967296

/-- One modelled draw of `np.random.choice(opts, ...)` from state `s`. -/
def randPick {α : Type} [Inhabited α] (opts : List α) (s : Nat) : α :=
  opts.getD (s % opts.length) default

/-- A size-`n` column of modelled draws, threading the state. -/
def randList {α : Type} [Inhabited α] (opts : List α) : Nat → Nat → List α
  | 0, _ => []
  | n + 1, s => randPick opts s :: randList opts n (lcg s)

/-- The PRNG state after `n` draws. -/
def stateAfter : Nat → Nat → Nat
  | 0, s => s
  | n + 1, s => stateAfter n (lcg s)

/-- `np.random.seed(k)`: the state becomes a function of `k` alone,
independent of the ambient state. -/
def npSeed (k : Nat) : Nat := k

/-- colors.py fallback: `np.random.seed(42)`, then 500 draws from
`['Y', None, 'Y', 'Y']` and 500 draws from `['Y', 'NULL', None]`. -/
def colorsFallback (_ambient : Nat) : List (Option String × Option String) :=
  let s0 := npSeed 42
  let c1 := randList [some "Y", none, some "Y", some "Y"] 500 s0
  let c2 := randList [some "Y", some "NULL", none] 500 (stateAfter 500 s0)
  c1.zip c2

/-- gang_colors.py fallback: NO seed call; 5000 draws from
`['Y', 'NULL', 'N']` for each column, starting from the ambient state. -/
def gangColorsFallback (ambient : Nat) : List (Option String × Option String) :=
  let c1 := randList [some "Y", some "NULL", some "N"] 5000 ambient
  let c2 := randList [some "Y", some "NULL", some "N"] 5000 (stateAfter 5000 ambient)
  c1.zip c2

/-- race.py fallback: `np.random.seed(43)`, then 500 draws for the race
column and 500 for the admits column. -/
def raceFallback (_ambient : Nat) : List (Option String × Option String) :=
  let s0 := npSeed 43
  let c1 := randList
    [some "Black", some "White", some "Hispanic", some "Multiracial", none, some "Black"]
    500 s0
  let c2 := randList [some "Y", some "NULL", none, some "Y"] 500 (stateAfter 500 s0)
  c1.zip c2

/-- Per-ZIP race option list of the heatmap.py fallback generator. -/
def heatOptsFor (z : String) : List String :=
  if z = "60620" ∨ z = "60649" then ["Black", "Hispanic", "White"]
  else if z = "60608" ∨ z = "60632" then ["Hispanic", "White", "Black"]
  else ["White", "Black", "Hispanic"]

/-- The per-record conditional race draws of heatmap.py's fallback. -/
def heatRaceDraws : List String → Nat → List String
  | [], _ => []
  | z :: zs, s => randPick (heatOptsFor z) s :: heatRaceDraws zs (lcg s)

/-- The `real_zips` constant of heatmap.py. -/
def realZips : List String :=
  ["60601", "60608", "60616", "60617", "60620", "60632", "60640", "60649", "60653", "60827"]

/-- heatmap.py fallback: `np.random.seed(42)`, 5000 ZIP draws, then one
conditional race draw per ZIP. -/
def heatmapFallback (_ambient : Nat) : List (String × String) :=
  let s0 := npSeed 42
  let zs := randList realZips 5000 s0
  zs.zip (heatRaceDraws zs (stateAfter 5000 s0))

/-- A modelled draw of `np.random.randint(0, bound)`. -/
def randNatBelow (bound s : Nat) : Nat := s % bound

/-- A size-`n` column of modelled `randint` draws. -/
def randNatList (bound : Nat) : Nat → Nat → List Nat
  | 0, _ => []
  | n + 1, s => randNatBelow bound s :: randNatList bound n (lcg s)

/-- Year of `2010-01-01 + off days`, approximated as `2010 + off / 365` (the
source takes the calendar year of the shifted date; the exact values are
irrelevant to the reproducibility claim). -/
def yearOfOffset (off : Nat) : Nat := 2010 + off / 365

/-- `np.random.rand() < p` as a modelled Bernoulli draw. -/
def randBernoulli (p : ℚ) (s : Nat) : Bool := ((s % 1000 : Nat) : ℚ) / 1000 < p

/-- `generate_binary_trend`, followed by the `'Y' if x else None` conversion:
one Bernoulli draw per record with a year-dependent success probability. -/
def escFlagDraws (base inc : ℚ) (minYear : Nat) : List Nat → Nat → List (Option String)
  | [], _ => []
  | off :: rest, s =>
    (if randBernoulli (base + ((yearOfOffset off : ℚ) - (minYear : ℚ)) * inc) s
      then some "Y" else none)
      :: escFlagDraws base inc minYear rest (lcg s)

/-- escalation.py fallback: `np.random.seed(45)`, 5000 day-offset draws in
`[0, 365 * 13)`, then the three trended flag columns. -/
def escalationFallback (_ambient : Nat) :
    List Nat × List (Option String) × List (Option String) × List (Option String) :=
  let s0 := npSeed 45
  let offs := randNatList 4745 5000 s0
  let minYear := (offs.map yearOfOffset).foldr min 2023
  let s1 := stateAfter 5000 s0
  let armed := escFlagDraws (5 / 100) (5 / 1000) minYear offs s1
  let s2 := stateAfter 5000 s1
  let felon := escFlagDraws (15 / 100) (1 / 100) minYear offs s2
  let s3 := stateAfter 5000 s2
  let probation := escFlagDraws (10 / 100) (8 / 1000) minYear offs s3
  (offs, armed, felon, probation)

/-! ### Claim C8 -/

/-- C8, counterexample: gang_colors.py's fallback generator calls no
`np.random.seed`, so its output depends on the ambient PRNG state — two runs
starting from different states produce different synthetic datasets. -/
theorem c8_gang_colors_not_reproducible :
    gangColorsFallback 0 ≠ gangColorsFallback 1 := by
  decide

/-- C8, amended: the colors.py, race.py, escalation.py and heatmap.py
fallback generators fix the PRNG seed (42, 43, 45, 42 respectively) before
drawing, so their synthetic datasets — and hence everything computed from
them — are identical across runs regardless of the ambient state.
gang_colors.py alone sets no seed and is not reproducible. -/
theorem c8_seeded_fallbacks_reproducible :
    (∀ s s' : Nat, colorsFallback s = colorsFallback s')
      ∧ (∀ s s' : Nat, raceFallback s = raceFallback s')
      ∧ (∀ s s' : Nat, escalationFallback s = escalationFallback s')
      ∧ (∀ s s' : Nat, heatmapFallback s = heatmapFallback s') :=
  ⟨fun _ _ => rfl, fun _ _ => rfl, fun _ _ => rfl, fun _ _ => rfl⟩

/-! ### Required-column checks (C9) -/

/-- The diagnostic each script prints before exiting when required columns
are missing: the columns it expected and the columns actually available
(escalation.py prints the missing sublist, recoverable from these two
fields as `expected.filter (· ∉ available)`). -/
structure SchemaFailure where
  expected : List String
  available : List String
deriving DecidableEq

/-- Required columns of colors.py. -/
def requiredColors : List String := ["Subject_Wears_Colors", "Subject_Admits_Gang"]

/-- Required columns of gang_colors.py. -/
def requiredGangColors : List String := ["Subject_Wears_Colors", "Subject_Admits_Gang"]

/-- Required columns of race.py. -/
def requiredRace : List String := ["Subject_Race_ID", "Subject_Admits_Gang"]

/-- Required columns of escalation.py (`[column_date] + columns_to_track`). -/
def requiredEscalation : List String :=
  ["Subject_Create_Date", "Subject_Armed", "Subject_Felon", "Subject_Probation"]

/-- Required columns of heatmap.py. -/
def requiredHeatmap : List String := ["address_zip", "Subject_Race_ID"]

/-- The shared load-check-transform skeleton: right after loading, each script
tests every required column against `df.columns` and calls `exit()` —
modelled as `Except.error` carrying the printed diagnostic — before any
transformation; only otherwise does the aggregation run. -/
def runChecked {α : Type} (required available : List String)
    (aggregate : Unit → α) : Except SchemaFailure α :=
  if required.all (fun c => c ∈ available) then Except.ok (aggregate ())
  else Except.error ⟨required, available⟩

/-- colors.py as a checked pipeline producing its frequency-table cells. -/
def runColors (available : List String)
    (l : List (Option String × Option String)) :
    Except SchemaFailure (List (List Nat)) :=
  runChecked requiredColors available
    (fun _ => colorsRowIdx.map (fun r => (colorsCols l).map (countPair (colorsRows l) r)))

/-- gang_colors.py as a checked pipeline producing its contingency-table
cells. -/
def runGangColors (available : List String)
    (l : List (Option String × Option String)) :
    Except SchemaFailure (List (List Nat)) :=
  runChecked requiredGangColors available
    (fun _ => (gangTableRows l).map (fun r => (gangTableCols l).map (countPair (gangRows l) r)))

/-- race.py as a checked pipeline producing its frequency-table cells. -/
def runRace (available : List String)
    (l : List (Option String × Option String)) :
    Except SchemaFailure (List (List Nat)) :=
  runChecked requiredRace available
    (fun _ => (rowLabels (raceRows l)).map (fun r => raceTableCols.map (countPair (raceRows l) r)))

/-- escalation.py as a checked pipeline producing its per-year percentages. -/
def runEscalation (available : List String) (l : List EscRow) :
    Except SchemaFailure (List (ℚ × ℚ × ℚ)) :=
  runChecked requiredEscalation available
    (fun _ => (escYears l).map (fun y =>
      (escPercent l .armed y, escPercent l .felon y, escPercent l .probation y)))

/-- heatmap.py as a checked pipeline producing its geo aggregate. -/
def runHeatmap (available : List String)
    (l : List (Option String × Option String)) :
    Except SchemaFailure (List (Option String × ℚ × Nat)) :=
  runChecked requiredHeatmap available
    (fun _ => (heatZips l).map (fun z =>
      (dominant_race l z, dominant_percentage l z, totalRecords l z)))

theorem runChecked_error {α : Type} (required available : List String)
    (f : Unit → α) (h : ∃ c ∈ required, c ∉ available) :
    runChecked required available f = Except.error ⟨required, available⟩ := by
  unfold runChecked
  rw [if_neg]
  intro hall
  obtain ⟨c, hc, hcn⟩ := h
  exact hcn (of_decide_eq_true (List.all_eq_true.mp hall c hc))

/-! ### Claim C9 -/

/-- C9: for every script, if any required column is missing from the loaded
dataset's columns, the run aborts with the expected-versus-available
diagnostic and produces no output — the aggregation is never reached. -/
theorem c9_schema_abort :
    (∀ (available : List String) (l : List (Option String × Option String)),
        (∃ c ∈ requiredColors, c ∉ available) →
          runColors available l = Except.error ⟨requiredColors, available⟩)
      ∧ (∀ (available : List String) (l : List (Option String × Option String)),
          (∃ c ∈ requiredGangColors, c ∉ available) →
            runGangColors available l = Except.error ⟨requiredGangColors, available⟩)
      ∧ (∀ (available : List String) (l : List (Option String × Option String)),
          (∃ c ∈ requiredRace, c ∉ available) →
            runRace available l = Except.error ⟨requiredRace, available⟩)
      ∧ (∀ (available : List String) (l : List EscRow),
          (∃ c ∈ requiredEscalation, c ∉ available) →
            runEscalation available l = Except.error ⟨requiredEscalation, available⟩)
      ∧ (∀ (available : List String) (l : List (Option String × Option String)),
          (∃ c ∈ requiredHeatmap, c ∉ available) →
            runHeatmap available l = Except.error ⟨requiredHeatmap, available⟩) :=
  ⟨fun a _ h => runChecked_error _ a _ h,
   fun a _ h => runChecked_error _ a _ h,
   fun a _ h => runChecked_error _ a _ h,
   fun a _ h => runChecked_error _ a _ h,
   fun a _ h => runChecked_error _ a _ h⟩

/-- C9 witness: each script aborts on a concrete dataset whose only column is
"foo". -/
theorem c9_schema_abort_witness :
    runColors ["foo"] [] = Except.error ⟨requiredColors, ["foo"]⟩
      ∧ runGangColors ["foo"] [] = Except.error ⟨requiredGangColors, ["foo"]⟩
      ∧ runRace ["foo"] [] = Except.error ⟨requiredRace, ["foo"]⟩
      ∧ runEscalation ["foo"] [] = Except.error ⟨requiredEscalation, ["foo"]⟩
      ∧ runHeatmap ["foo"] [] = Except.error ⟨requiredHeatmap, ["foo"]⟩ :=
  ⟨c9_schema_abort.1 ["foo"] [] ⟨"Subject_Wears_Colors", by decide, by decide⟩,
   c9_schema_abort.2.1 ["foo"] [] ⟨"Subject_Wears_Colors", by decide, by decide⟩,
   c9_schema_abort.2.2.1 ["foo"] [] ⟨"Subject_Race_ID", by decide, by decide⟩,
   c9_schema_abort.2.2.2.1 ["foo"] [] ⟨"Subject_Create_Date", by decide, by decide⟩,
   c9_schema_abort.2.2.2.2 ["foo"] [] ⟨"address_zip", by decide, by decide⟩⟩


end GangViz
